import Mathlib

/-!
# Verification of the format-selection and stream-assembly engine

Shallow embedding of `src/downloader.py` (the yt-dlp/ffmpeg media-fetch
backend): the format-selection functions `_get_best_video_format_id` and
`_get_crf_for_height`, the selection, filename and ffmpeg-argument logic of
`stream_media`, and a transition model of the byte-relay generator
`_stream_subprocess`.

Modelling conventions:
* a Python dict representing one yt-dlp format becomes `FormatRecord`;
  a key that may be absent or `None` becomes an `Option` field
  (`f.get("vcodec")` returning `None` is `none`);
* Python `max(l, key=k)` becomes `pymax`, a left fold that replaces the
  accumulator only on a strictly larger key, so the first maximum wins,
  exactly as in CPython; it returns `none` on `[]` (Python raises there,
  but every call site guards non-emptiness);
* declared bitrates (`tbr`, floats in Python) are modelled as integer
  kbps values, heights as integers — no claim here depends on fractional
  bitrates, and all comparisons are order-isomorphic;
* Python string containment `pat in s` becomes `strIn`.
-/

/-- True exactly when `pat` is an initial segment of `l`
(character lists compared with `==`). -/
def leadsWith : List Char → List Char → Bool
  | [], _ => true
  | _ :: _, [] => false
  | a :: as, b :: bs => a == b && leadsWith as bs

/-- True exactly when some contiguous segment of `l` equals `pat`. -/
def hasSubList (pat : List Char) : List Char → Bool
  | [] => pat.isEmpty
  | c :: rest => leadsWith pat (c :: rest) || hasSubList pat rest

/-- Python substring containment `pat in s`. -/
def strIn (pat s : String) : Bool :=
  hasSubList pat.toList s.toList

/-- Python `s.lower()` (ASCII fragment; the codec ids and mode strings the
source lowercases are ASCII). -/
def strLower (s : String) : String :=
  String.mk (s.toList.map Char.toLower)

/-- Python `max(l, key=…)` where `lt a b` decides whether the key of `a` is
strictly below the key of `b`: the fold keeps the earlier element on ties, so the
first element attaining the maximal key wins.  Returns `none` on `[]`. -/
def pymax (lt : α → α → Bool) : List α → Option α
  | [] => none
  | x :: xs => some (xs.foldl (fun b a => if lt b a then a else b) x)

/-- One yt-dlp format dict, restricted to the keys `downloader.py` reads.
`none` models an absent key (or a key present with value `None`). -/
structure FormatRecord where
  format_id : String
  vcodec : Option String := none
  acodec : Option String := none
  height : Option Int := none
  tbr : Option Int := none
  url : String := ""
deriving Repr, DecidableEq

/-- The video-format filter of `_get_best_video_format_id` (lines 70–73):
`f.get("vcodec") != "none" and f.get("height") is not None`. -/
def isVideoFormat (f : FormatRecord) : Bool :=
  f.vcodec != some "none" && f.height.isSome

/-- Embeds `score_format` (lines 84–98): codec-tier bonus plus declared bitrate.
`f.get("vcodec") or "", lowercased` is `strLower (f.vcodec.getD "")`;
`f.get("tbr") or 0` is `f.tbr.getD 0` (the Python `or 0` and `getD 0`
agree, both sending `None` and `0.0` to `0`). -/
def scoreFormat (f : FormatRecord) : Int :=
  let vcodec := strLower (f.vcodec.getD "")
  let base : Int :=
    if strIn "av01" vcodec then 15000
    else if strIn "vp9" vcodec || strIn "vp09" vcodec then 10000
    else if strIn "avc" vcodec || strIn "h264" vcodec then 8000
    else 0
  base + f.tbr.getD 0

/-- Strict comparison of `score_format` values, the key of line 100. -/
def scoreLt (a b : FormatRecord) : Bool :=
  decide (scoreFormat a < scoreFormat b)

/-- Python tuple comparison of the line-106 keys
`(f.get("tbr") or 0)` together with the height default: lexicographic. -/
def fallbackLt (a b : FormatRecord) : Bool :=
  decide (a.height.getD 0 < b.height.getD 0) ||
    (a.height.getD 0 == b.height.getD 0 && decide (a.tbr.getD 0 < b.tbr.getD 0))

/-- Embeds `_get_best_video_format_id` (lines 65–110): exact-height matches are
ranked by `score_format`; with no exact match, line 106 takes the maximum
of `(height or 0, tbr or 0)` over all video formats. -/
def getBestVideoFormatId (formats : List FormatRecord) (targetHeight : Int) :
    Option String :=
  let videoFormats := formats.filter isVideoFormat
  if videoFormats.isEmpty then none
  else
    let exactMatches := videoFormats.filter (fun f => f.height == some targetHeight)
    if !exactMatches.isEmpty then
      (pymax scoreLt exactMatches).map FormatRecord.format_id
    else
      (pymax fallbackLt videoFormats).map FormatRecord.format_id

/-- Embeds `_get_crf_for_height` (lines 113–136).  The argument models the Python
value handed in: `none` stands for any input `int(…)` raises on, which the
`except` branch replaces by 1080. -/
def getCrfForHeight (height : Option Int) : String :=
  let h := height.getD 1080
  if h ≥ 4320 then "19"
  else if h ≥ 2160 then "20"
  else if h ≥ 1440 then "21"
  else if h ≥ 1080 then "22"
  else if h ≥ 720 then "23"
  else if h ≥ 480 then "24"
  else "25"

/-- Numeric reading of a CRF string (digits folded structurally, so that it
evaluates inside the kernel). -/
def digitsVal (s : String) : Nat :=
  s.toList.foldl (fun n c => n * 10 + (c.toNat - '0'.toNat)) 0

/-- The CRF value as a number. -/
def crfVal (height : Option Int) : Nat :=
  digitsVal (getCrfForHeight height)

/-- The lexicographic key that the Python tuple comparison of line 106 uses. -/
def fallbackKey (f : FormatRecord) : Int ×ₗ Int :=
  toLex (f.height.getD 0, f.tbr.getD 0)

/-- Strict comparison of `f.get("tbr") or 0` keys (lines 254/258/265). -/
def tbrLt (a b : FormatRecord) : Bool :=
  decide (a.tbr.getD 0 < b.tbr.getD 0)

/-- Strict comparison of the line-238 key `f.get("height") or 0`. -/
def heightLt (a b : FormatRecord) : Bool :=
  decide (a.height.getD 0 < b.height.getD 0)

/-- Lines 228–238 of `stream_media`: run `_get_best_video_format_id`, look
the returned id up in the catalog (`if video_id:` is Python-falsy for
`None` and for the empty string), and otherwise take the last-resort
candidate of maximal height, where `f.get("height")` truthiness rejects
absent and zero heights. -/
def selectVideoFmt (formats : List FormatRecord) (targetHeight : Int) :
    Option FormatRecord :=
  let selected : Option FormatRecord :=
    match getBestVideoFormatId formats targetHeight with
    | none => none
    | some vid =>
        if vid == "" then none
        else formats.find? (fun f => f.format_id == vid)
  match selected with
  | some f => some f
  | none =>
      let candidates := formats.filter
        (fun (f : FormatRecord) => f.vcodec != some "none" && f.height.getD 0 != 0)
      pymax heightLt candidates

/-- Lines 240–241 with 352–353: `video_url` is the url of the selected format;
the video branch raises `Could not find suitable video stream` exactly when
`video_url` is Python-falsy — no format was selected, or its url is `""`. -/
def videoModeRaises (formats : List FormatRecord) (targetHeight : Int) : Bool :=
  match selectVideoFmt formats targetHeight with
  | none => true
  | some f => f.url == ""

/-- Lines 243–259 of `stream_media`: pair a separate audio url only when the
chosen video format has `acodec` literally `"none"`; candidates are the
audio-only formats; for WebM the preferred subset is `"opus" in acodec`,
otherwise (any other extension, i.e. MP4) it is `"mp4a" in acodec`; an empty
preferred subset falls back to all audio-only candidates; the winner has the
maximal `tbr or 0`. -/
def pairAudioUrl (selectedVideoFmt : FormatRecord) (formats : List FormatRecord)
    (ext : String) : Option String :=
  if selectedVideoFmt.acodec != some "none" then none
  else
    let audioCandidates := formats.filter
      (fun f => f.acodec != some "none" && f.vcodec == some "none")
    if audioCandidates.isEmpty then none
    else if ext == "webm" then
      let opusCandidates := audioCandidates.filter
        (fun f => strIn "opus" (f.acodec.getD ""))
      (pymax tbrLt (if opusCandidates.isEmpty then audioCandidates
        else opusCandidates)).map FormatRecord.url
    else
      let aacCandidates := audioCandidates.filter
        (fun f => strIn "mp4a" (f.acodec.getD ""))
      (pymax tbrLt (if aacCandidates.isEmpty then audioCandidates
        else aacCandidates)).map FormatRecord.url

/-- Lines 263–266 of `stream_media` (audio mode): every format whose
`acodec` is not `"none"` — including muxed video+audio formats — competes on
`tbr or 0`. -/
def selectAudioOnlyUrl (formats : List FormatRecord) : Option String :=
  let audioCandidates := formats.filter (fun f => f.acodec != some "none")
  (pymax tbrLt audioCandidates).map FormatRecord.url

/-- Lines 366–368: in audio mode `video_url` is never assigned, so the
branch raises `No suitable stream found` exactly when the chosen audio url
is Python-falsy (no candidate, or url `""`). -/
def audioModeRaises (formats : List FormatRecord) : Bool :=
  match selectAudioOnlyUrl formats with
  | none => true
  | some u => u == ""

/-- Mode dispatch, line 222: `"video" in mode or "vid" == mode or "webm" in mode`
(applied to the lowercased mode string). -/
def isVideoMode (mode : String) : Bool :=
  strIn "video" mode || mode == "vid" || strIn "webm" mode

/-- Lines 370–373: the MP3 bitrate table of the audio branch, keyed by
substring containment on the (lowercased) mode string, default `192k`. -/
def mp3Bitrate (mode : String) : String :=
  if strIn "320" mode then "320k"
  else if strIn "128" mode then "128k"
  else if strIn "64" mode then "64k"
  else "192k"

/-- The regex class `[\w\-_\. ]` kept by line 269 (ASCII fragment of
Python `\w`; with Unicode input Python additionally keeps non-ASCII word
characters, which only widens the kept set). -/
def isSafeChar (c : Char) : Bool :=
  c.isAlphanum || c == '_' || c == '-' || c == '.' || c == ' '

/-- Line 269: `re.sub(r'[^\w\-_\. ]', '_', title)[:200]` — every character
outside the class is replaced (not stripped) by an underscore, then the
result is cut to its first 200 characters. -/
def safeTitle (title : String) : String :=
  String.mk ((title.toList.map (fun c => if isSafeChar c then c else '_')).take 200)

/-- The check `"vp9" in vcodec or "vp09" in vcodec` (lines 302/342). -/
def vp9In (vcodec : String) : Bool :=
  strIn "vp9" vcodec || strIn "vp09" vcodec

/-- The `codec_args` assembly of the video branch (lines 288–351).
`twoInputs` tells whether both a video url and a separate audio url feed
ffmpeg (lines 289–322) or only a muxed video url does (lines 323–351).
With two inputs: WebM copies the video track only for a VP9 source and
re-encodes audio to Opus, otherwise transcodes to VP9 at the given CRF;
MP4 always re-encodes to H.264/yuv420p at the given CRF.  With one input:
MP4 always re-encodes the same way; WebM copies both tracks for a VP9
source, else transcodes to VP9/Opus. -/
def buildCodecArgs (ext vcodecRaw crfValue : String) (twoInputs : Bool) :
    List String :=
  let vcodec := strLower vcodecRaw
  if twoInputs then
    if ext == "webm" then
      if vp9In vcodec then
        ["-c:v", "copy", "-c:a", "libopus", "-b:a", "192k"]
      else
        ["-c:v", "libvpx-vp9", "-crf", crfValue, "-b:v", "0",
         "-c:a", "libopus", "-b:a", "192k"]
    else
      ["-c:v", "libx264", "-preset", "fast", "-crf", crfValue,
       "-pix_fmt", "yuv420p", "-profile:v", "high", "-c:a", "aac", "-b:a", "192k"]
  else
    if ext == "mp4" then
      ["-c:v", "libx264", "-preset", "fast", "-crf", crfValue,
       "-pix_fmt", "yuv420p", "-profile:v", "high", "-c:a", "aac", "-b:a", "192k"]
    else
      if vp9In vcodec then
        ["-c:v", "copy", "-c:a", "copy"]
      else
        ["-c:v", "libvpx-vp9", "-crf", crfValue, "-b:v", "0",
         "-c:a", "libopus", "-b:a", "192k"]

/-! ## Transition model of the byte-relay generator `_stream_subprocess`

The generator (lines 178–199) is modelled as a function of the chunk
sequence the subprocess will produce and of how its consumer drives it:
reading to exhaustion, closing the generator after `k` chunks (Python
delivers `GeneratorExit` at the suspended `yield`), or a read raising
after `k` chunks.  The `finally` block is modelled as `cleanupHandles`.
-/

/-- How the relay loop terminates: normal stream exhaustion, the consumer
abandoning the generator after `k` chunks, or `process.stdout.read` raising
after `k` successful chunks. -/
inductive TermMode where
  | normal
  | abandon (k : Nat)
  | readError (k : Nat)
deriving Repr, DecidableEq

/-- Why control left the `while` loop. -/
inductive LoopExit where
  | finished
  | closedByConsumer
  | raisedInRead
deriving Repr, DecidableEq

/-- Resource bookkeeping for the subprocess: which cleanup obligations of
the `finally` block (lines 192–199) have been discharged. -/
structure ProcHandles where
  stdoutClosed : Bool := false
  stderrClosed : Bool := false
  terminated : Bool := false
  waitCalled : Bool := false
deriving Repr, DecidableEq

/-- Lines 181–185: the read loop.  Yields the produced chunks in order and
reports how it stopped. -/
def relayLoop : List α → TermMode → List α × LoopExit
  | [], _ => ([], .finished)
  | _ :: _, .abandon 0 => ([], .closedByConsumer)
  | c :: cs, .abandon (k + 1) =>
      let r := relayLoop cs (.abandon k)
      (c :: r.1, r.2)
  | _ :: _, .readError 0 => ([], .raisedInRead)
  | c :: cs, .readError (k + 1) =>
      let r := relayLoop cs (.readError k)
      (c :: r.1, r.2)
  | c :: cs, .normal =>
      let r := relayLoop cs .normal
      (c :: r.1, r.2)

/-- Lines 192–199, the `finally` block: close stdout, close stderr,
terminate, then `wait(timeout=1)` — a bounded wait.  The surrounding
`try/except Exception: pass`-shaped handler (lines 193–199) swallows
anything these calls raise (e.g. `TimeoutExpired` from the bounded wait),
so the second component — whether cleanup propagates an exception — is
`false`. -/
def cleanupHandles (h : ProcHandles) : ProcHandles × Bool :=
  let h1 := { h with stdoutClosed := true }
  let h2 := { h1 with stderrClosed := true }
  let h3 := { h2 with terminated := true }
  let h4 := { h3 with waitCalled := true }
  (h4, false)

/-- Outcome of one full run of the generator. -/
structure RunResult (α : Type) where
  yielded : List α
  handles : ProcHandles
  propagated : Bool
deriving Repr

/-- Embeds `_stream_subprocess` (lines 178–199) as a whole: the loop body runs
under `try`; a read failure is caught by `except Exception` (line 190) and
logged; a consumer close raises `GeneratorExit` at the `yield`, which skips
the `except` clause; in every case the `finally` block runs before the
frame is discarded, and nothing escapes the cleanup itself. -/
def streamSubprocess (chunks : List α) (mode : TermMode) (h : ProcHandles) :
    RunResult α :=
  let r := relayLoop chunks mode
  let c := cleanupHandles h
  { yielded := r.1, handles := c.1, propagated := c.2 }

/-! ## Generic facts about `pymax` (Python `max(…, key=…)`) -/

theorem pymax_eq_none {α : Type} (lt : α → α → Bool) (l : List α) :
    pymax lt l = none ↔ l = [] := by
  cases l <;> simp [pymax]

theorem pymax_go_spec {α κ : Type} [LinearOrder κ] (key : α → κ)
    (lt : α → α → Bool) (hlt : ∀ a b, lt a b = true ↔ key a < key b) :
    ∀ (l : List α) (b r : α),
      l.foldl (fun x a => if lt x a then a else x) b = r →
      (∀ y ∈ l, key y ≤ key r) ∧ key b ≤ key r ∧
        (r = b ∨ ∃ l₁ l₂, l = l₁ ++ r :: l₂ ∧ key b < key r ∧
          ∀ y ∈ l₁, key y < key r) := by
  intro l
  induction l with
  | nil =>
      intro b r h
      simp only [List.foldl_nil] at h
      subst h
      simp
  | cons a t ih =>
      intro b r h
      simp only [List.foldl_cons] at h
      by_cases hba : lt b a = true
      · rw [if_pos hba] at h
        have hba' : key b < key a := (hlt b a).mp hba
        obtain ⟨h1, h2, h3⟩ := ih a r h
        refine ⟨?_, le_of_lt (lt_of_lt_of_le hba' h2), ?_⟩
        · intro y hy
          rcases List.mem_cons.mp hy with rfl | hy'
          · exact h2
          · exact h1 y hy'
        · rcases h3 with rfl | ⟨l₁, l₂, hs, hblt, hall⟩
          · exact Or.inr ⟨[], t, by simp, hba', by simp⟩
          · refine Or.inr ⟨a :: l₁, l₂, by simp [hs], lt_trans hba' hblt, ?_⟩
            intro y hy
            rcases List.mem_cons.mp hy with rfl | hy'
            · exact hblt
            · exact hall y hy'
      · rw [if_neg hba] at h
        have hab : key a ≤ key b :=
          le_of_not_lt (fun hc => hba ((hlt b a).mpr hc))
        obtain ⟨h1, h2, h3⟩ := ih b r h
        refine ⟨?_, h2, ?_⟩
        · intro y hy
          rcases List.mem_cons.mp hy with rfl | hy'
          · exact le_trans hab h2
          · exact h1 y hy'
        · rcases h3 with rfl | ⟨l₁, l₂, hs, hblt, hall⟩
          · exact Or.inl rfl
          · refine Or.inr ⟨a :: l₁, l₂, by simp [hs], hblt, ?_⟩
            intro y hy
            rcases List.mem_cons.mp hy with rfl | hy'
            · exact lt_of_le_of_lt hab hblt
            · exact hall y hy'

/-- The element Python `max` returns is the first one attaining the
maximal key: everything in the list is `≤` it, and everything strictly
before it is `<` it. -/
theorem pymax_spec {α κ : Type} [LinearOrder κ] (key : α → κ)
    (lt : α → α → Bool) (hlt : ∀ a b, lt a b = true ↔ key a < key b)
    (l : List α) (x : α) (hx : pymax lt l = some x) :
    (∀ y ∈ l, key y ≤ key x) ∧
      ∃ l₁ l₂, l = l₁ ++ x :: l₂ ∧ ∀ y ∈ l₁, key y < key x := by
  cases l with
  | nil => simp [pymax] at hx
  | cons b t =>
      simp only [pymax, Option.some.injEq] at hx
      obtain ⟨h1, h2, h3⟩ := pymax_go_spec key lt hlt t b x hx
      constructor
      · intro y hy
        rcases List.mem_cons.mp hy with rfl | hy'
        · exact h2
        · exact h1 y hy'
      · rcases h3 with rfl | ⟨l₁, l₂, hs, hblt, hall⟩
        · exact ⟨[], t, rfl, by simp⟩
        · refine ⟨b :: l₁, l₂, by simp [hs], ?_⟩
          intro y hy
          rcases List.mem_cons.mp hy with rfl | hy'
          · exact hblt
          · exact hall y hy'

theorem pymax_mem {α κ : Type} [LinearOrder κ] (key : α → κ)
    (lt : α → α → Bool) (hlt : ∀ a b, lt a b = true ↔ key a < key b)
    (l : List α) (x : α) (hx : pymax lt l = some x) : x ∈ l := by
  obtain ⟨-, l₁, l₂, hs, -⟩ := pymax_spec key lt hlt l x hx
  subst hs
  simp

theorem tbrLt_iff (a b : FormatRecord) :
    tbrLt a b = true ↔ a.tbr.getD 0 < b.tbr.getD 0 := by
  simp [tbrLt]

theorem scoreLt_iff (a b : FormatRecord) :
    scoreLt a b = true ↔ scoreFormat a < scoreFormat b := by
  simp [scoreLt]

theorem heightLt_iff (a b : FormatRecord) :
    heightLt a b = true ↔ a.height.getD 0 < b.height.getD 0 := by
  simp [heightLt]

/-! ## Claim theorems -/

/-- C8: the CRF quality factor is antitone in resolution and bounded:
for heights `a ≤ b` the CRF of `b` is numerically at most the CRF of `a`;
every value lies in `[19, 25]`; every height below 480 gets `"25"`; and an
unparseable input (modelled `none`) is treated as height 1080. -/
theorem crf_antitone_bounded :
    (∀ a b : Int, a ≤ b → crfVal (some b) ≤ crfVal (some a)) ∧
    (∀ h : Option Int, 19 ≤ crfVal h ∧ crfVal h ≤ 25) ∧
    (∀ h : Int, h < 480 → getCrfForHeight (some h) = "25") ∧
    getCrfForHeight none = getCrfForHeight (some 1080) := by
  refine ⟨?_, ?_, ?_, rfl⟩
  · intro a b hab
    simp only [crfVal, getCrfForHeight, Option.getD_some]
    split_ifs <;> first | decide | omega
  · intro h
    cases h with
    | none => decide
    | some v =>
        simp only [crfVal, getCrfForHeight, Option.getD_some]
        split_ifs <;> decide
  · intro h hlt
    simp only [getCrfForHeight, Option.getD_some]
    split_ifs <;> first | rfl | omega

theorem crf_antitone_bounded_witness :
    crfVal (some 2160) ≤ crfVal (some 720) ∧
    (19 ≤ crfVal (some 4320) ∧ crfVal (some 4320) ≤ 25) ∧
    getCrfForHeight (some 360) = "25" :=
  ⟨crf_antitone_bounded.1 720 2160 (by decide),
   crf_antitone_bounded.2.1 (some 4320),
   crf_antitone_bounded.2.2.1 360 (by decide)⟩

/-- C10: MP3 bitrate choice in the audio branch is by substring matching on
the mode string with precedence 320 > 128 > 64, default `192k` (so plain
`"audio"` gets `192k`). -/
theorem mp3_bitrate_table (mode : String) (_hmode : isVideoMode mode = false) :
    (strIn "320" mode = true → mp3Bitrate mode = "320k") ∧
    (strIn "320" mode = false → strIn "128" mode = true →
      mp3Bitrate mode = "128k") ∧
    (strIn "320" mode = false → strIn "128" mode = false →
      strIn "64" mode = true → mp3Bitrate mode = "64k") ∧
    (strIn "320" mode = false → strIn "128" mode = false →
      strIn "64" mode = false → mp3Bitrate mode = "192k") := by
  refine ⟨fun h1 => ?_, fun h1 h2 => ?_, fun h1 h2 h3 => ?_, fun h1 h2 h3 => ?_⟩ <;>
    simp [mp3Bitrate, h1]
  · simp [h2]
  · simp [h2, h3]
  · simp [h2, h3]

theorem mp3_bitrate_table_witness :
    mp3Bitrate "audio320" = "320k" ∧ mp3Bitrate "audio" = "192k" :=
  ⟨(mp3_bitrate_table "audio320" (by decide)).1 (by decide),
   (mp3_bitrate_table "audio" (by decide)).2.2.2 (by decide) (by decide) (by decide)⟩

/-- C5 as stated is false: sanitization substitutes underscores instead of
stripping, so it never "leaves nothing" on a non-empty title, and on the
empty title the stem is empty — no generic placeholder is substituted
(the `"video"` default of line 268 applies only when the probe result has
no title key at all). -/
theorem safe_title_counterexample : safeTitle "" = "" := rfl

/-- C5 amended: the stem uses only allow-listed characters and has length
at most 200, and it is non-empty exactly when the input title is. -/
theorem safe_title_amended (title : String) :
    (∀ c ∈ (safeTitle title).toList, isSafeChar c = true) ∧
    (safeTitle title).length ≤ 200 ∧
    (safeTitle title = "" ↔ title = "") := by
  obtain ⟨d⟩ := title
  refine ⟨?_, ?_, ?_⟩
  · intro c hc
    have hc' : c ∈ (d.map (fun c => if isSafeChar c then c else '_')).take 200 := hc
    have hc'' := List.take_subset 200 _ hc'
    obtain ⟨c₀, -, rfl⟩ := List.mem_map.mp hc''
    by_cases hs : isSafeChar c₀ = true
    · rw [if_pos hs]; exact hs
    · rw [if_neg hs]; decide
  · show ((d.map _).take 200).length ≤ 200
    rw [List.length_take]
    exact min_le_left _ _
  · have hmk : ∀ X : List Char, String.mk X = "" ↔ X = [] := by
      intro X
      constructor
      · intro hEq; exact congrArg String.data hEq
      · intro hEq; subst hEq; rfl
    show String.mk ((d.map (fun c => if isSafeChar c then c else '_')).take 200) = "" ↔
        String.mk d = ""
    rw [hmk, hmk, List.take_eq_nil_iff, List.map_eq_nil_iff]
    simp

/-- C9: on every termination of the relay loop — normal exhaustion, the
consumer abandoning the generator after any number of chunks, or a read
failure — the `finally` cleanup closes stdout and stderr, terminates the
process and performs the bounded wait, no exception escapes the cleanup,
and the bytes already produced are exactly the expected prefix. -/
theorem stream_cleanup {α : Type} (chunks : List α) (mode : TermMode)
    (h : ProcHandles) :
    (streamSubprocess chunks mode h).handles.stdoutClosed = true ∧
    (streamSubprocess chunks mode h).handles.stderrClosed = true ∧
    (streamSubprocess chunks mode h).handles.terminated = true ∧
    (streamSubprocess chunks mode h).handles.waitCalled = true ∧
    (streamSubprocess chunks mode h).propagated = false ∧
    (streamSubprocess chunks mode h).yielded =
      (match mode with
       | .normal => chunks
       | .abandon k => chunks.take k
       | .readError k => chunks.take k) := by
  have hy : ∀ (l : List α) (m : TermMode),
      (relayLoop l m).1 =
        (match m with
         | .normal => l
         | .abandon k => l.take k
         | .readError k => l.take k) := by
    intro l
    induction l with
    | nil => intro m; cases m <;> simp [relayLoop]
    | cons c cs ih =>
        intro m
        cases m with
        | normal => simp [relayLoop, ih TermMode.normal]
        | abandon k =>
            cases k with
            | zero => simp [relayLoop]
            | succ k => simp [relayLoop, ih (TermMode.abandon k)]
        | readError k =>
            cases k with
            | zero => simp [relayLoop]
            | succ k => simp [relayLoop, ih (TermMode.readError k)]
  refine ⟨rfl, rfl, rfl, rfl, rfl, ?_⟩
  show (relayLoop chunks mode).1 = _
  exact hy chunks mode

/-- The CRF string produced by `_get_crf_for_height` is one of seven values. -/
theorem getCrfForHeight_cases (h : Option Int) :
    getCrfForHeight h = "19" ∨ getCrfForHeight h = "20" ∨
    getCrfForHeight h = "21" ∨ getCrfForHeight h = "22" ∨
    getCrfForHeight h = "23" ∨ getCrfForHeight h = "24" ∨
    getCrfForHeight h = "25" := by
  simp only [getCrfForHeight]
  split_ifs <;> simp

/-- C4 as stated is false: an H.264 source bound for an MP4 container is
"already compatible" in the sense of the claim, yet the assembled
arguments re-encode with libx264 rather than stream-copy. -/
theorem codec_copy_counterexample :
    (buildCodecArgs "mp4" "avc1.640028" "22" true).contains "copy" = false ∧
    (buildCodecArgs "mp4" "avc1.640028" "22" true).contains "libx264" = true := by
  decide

/-- C4 amended: pass-through copy of the video track happens exactly on the
WebM path with a VP9/VP09 source (in both the two-input and the muxed
single-input shape); the MP4 path always re-encodes with libx264 carrying
the resolution-scaled CRF, and the WebM transcode branch carries it too. -/
theorem codec_copy_amended (h : Option Int) (vcodecRaw : String) (two : Bool) :
    ((buildCodecArgs "webm" vcodecRaw (getCrfForHeight h) two).contains "copy"
      = vp9In (strLower vcodecRaw)) ∧
    ((buildCodecArgs "mp4" vcodecRaw (getCrfForHeight h) two).contains "copy"
      = false) ∧
    ((buildCodecArgs "mp4" vcodecRaw (getCrfForHeight h) two).contains "libx264"
      = true) ∧
    ((buildCodecArgs "mp4" vcodecRaw (getCrfForHeight h) two).contains
      (getCrfForHeight h) = true) ∧
    (vp9In (strLower vcodecRaw) = false →
      (buildCodecArgs "webm" vcodecRaw (getCrfForHeight h) two).contains
        (getCrfForHeight h) = true) := by
  rcases getCrfForHeight_cases h with hc | hc | hc | hc | hc | hc | hc <;>
    rw [hc] <;>
    cases hvp : vp9In (strLower vcodecRaw) <;>
    cases two <;>
    simp only [buildCodecArgs, hvp] <;>
    decide

theorem codec_copy_amended_witness :
    (buildCodecArgs "webm" "avc1" (getCrfForHeight (some 1080)) false).contains
      (getCrfForHeight (some 1080)) = true :=
  (codec_copy_amended (some 1080) "avc1" false).2.2.2.2 (by decide)

theorem isEmpty_false_iff {α : Type} (l : List α) : l.isEmpty = false ↔ l ≠ [] := by
  cases l <;> simp

/-- First-maximum-by-bitrate characterization of `max(…, key=tbr or 0)`
followed by the url field access, shared by the audio selection paths. -/
theorem pymax_url_spec (L : List FormatRecord) (hne : L ≠ []) :
    ∃ l₁ l₂ f, L = l₁ ++ f :: l₂ ∧
      (pymax tbrLt L).map FormatRecord.url = some f.url ∧
      (∀ g ∈ L, g.tbr.getD 0 ≤ f.tbr.getD 0) ∧
      (∀ g ∈ l₁, g.tbr.getD 0 < f.tbr.getD 0) := by
  rcases ho : pymax tbrLt L with _ | x
  · exact absurd ((pymax_eq_none _ _).mp ho) hne
  · obtain ⟨hle, l₁, l₂, hsplit, hlt⟩ :=
      pymax_spec (fun f => f.tbr.getD 0) tbrLt tbrLt_iff L x ho
    exact ⟨l₁, l₂, x, hsplit, rfl, hle, hlt⟩

/-- C6: in the audio-only path every format carrying audio competes —
including muxed video+audio formats; the winner is the first format
attaining the maximal declared bitrate (`tbr or 0`); and the branch raises
`No suitable stream found` exactly when no catalog format carries audio.
Hypothesis: catalog urls are non-empty strings (as yt-dlp delivers them;
an empty url is Python-falsy and would also raise). -/
theorem audio_only_selection (formats : List FormatRecord)
    (hurl : ∀ f ∈ formats, f.url ≠ "") :
    (audioModeRaises formats = true ↔
      formats.filter (fun f => f.acodec != some "none") = []) ∧
    (formats.filter (fun f => f.acodec != some "none") ≠ [] →
      ∃ l₁ l₂ f,
        formats.filter (fun f => f.acodec != some "none") = l₁ ++ f :: l₂ ∧
        selectAudioOnlyUrl formats = some f.url ∧
        (∀ g ∈ formats.filter (fun f => f.acodec != some "none"),
          g.tbr.getD 0 ≤ f.tbr.getD 0) ∧
        (∀ g ∈ l₁, g.tbr.getD 0 < f.tbr.getD 0)) := by
  by_cases hAe : formats.filter (fun f => f.acodec != some "none") = []
  · have h1 : selectAudioOnlyUrl formats = none := by
      simp only [selectAudioOnlyUrl, hAe, pymax, Option.map_none']
    refine ⟨?_, fun hne => absurd hAe hne⟩
    simp [audioModeRaises, h1, hAe]
  · obtain ⟨l₁, l₂, x, hsplit, hmap, hle, hlt⟩ := pymax_url_spec _ hAe
    have hxmem : x ∈ formats.filter (fun f => f.acodec != some "none") := by
      rw [hsplit]; simp
    have hxF : x ∈ formats := (List.mem_filter.mp hxmem).1
    have hsel : selectAudioOnlyUrl formats = some x.url := hmap
    refine ⟨?_, fun _ => ⟨l₁, l₂, x, hsplit, hsel, hle, hlt⟩⟩
    have hxu := hurl x hxF
    simp [audioModeRaises, hsel, hAe, hxu]

theorem audio_only_selection_witness :
    audioModeRaises
      [{ format_id := "a64", acodec := some "mp4a.40.2", tbr := some 64, url := "u64" },
       { format_id := "a128", acodec := some "mp4a.40.2", tbr := some 128, url := "u128" },
       { format_id := "a192", acodec := some "mp4a.40.2", tbr := some 192, url := "u192" }]
      = true ↔
    List.filter (fun (f : FormatRecord) => f.acodec != some "none")
      [{ format_id := "a64", acodec := some "mp4a.40.2", tbr := some 64, url := "u64" },
       { format_id := "a128", acodec := some "mp4a.40.2", tbr := some 128, url := "u128" },
       { format_id := "a192", acodec := some "mp4a.40.2", tbr := some 192, url := "u192" }]
      = [] :=
  (audio_only_selection
    [{ format_id := "a64", acodec := some "mp4a.40.2", tbr := some 64, url := "u64" },
     { format_id := "a128", acodec := some "mp4a.40.2", tbr := some 128, url := "u128" },
     { format_id := "a192", acodec := some "mp4a.40.2", tbr := some 192, url := "u192" }]
    (by decide)).1

/-- C2 states a tier-first ranking, which is false: among exact 1080p matches, an H.264
format at 5000 kbps outscores a VP9 format at 500 kbps (8000 + 5000 >
10000 + 500), so a large bitrate gap overrides the codec tier. -/
theorem exact_match_counterexample :
    getBestVideoFormatId
      [{ format_id := "vp9-1080", vcodec := some "vp9", height := some 1080,
         tbr := some 500 },
       { format_id := "avc-1080", vcodec := some "avc1.640028",
         height := some 1080, tbr := some 5000 }] 1080
      = some "avc-1080" := by decide

/-- C2 amended: with at least one exact-height match the selector returns
the id of an exact match — the first one maximizing `score_format`, the
additive codec-tier bonus (AV1 15000, VP9 10000, H.264 8000, other 0) plus
declared bitrate; the tier dominates only while bitrate differences stay
below the tier gaps. -/
theorem exact_match_selection (formats : List FormatRecord) (targetHeight : Int)
    (hne : (formats.filter isVideoFormat).filter
      (fun f => f.height == some targetHeight) ≠ []) :
    ∃ l₁ l₂ f,
      (formats.filter isVideoFormat).filter (fun f => f.height == some targetHeight)
        = l₁ ++ f :: l₂ ∧
      getBestVideoFormatId formats targetHeight = some f.format_id ∧
      f.height = some targetHeight ∧
      (∀ g ∈ (formats.filter isVideoFormat).filter
          (fun f => f.height == some targetHeight),
        scoreFormat g ≤ scoreFormat f) ∧
      (∀ g ∈ l₁, scoreFormat g < scoreFormat f) := by
  have hvne : formats.filter isVideoFormat ≠ [] := by
    intro h0
    rw [h0] at hne
    simp at hne
  rcases ho : pymax scoreLt ((formats.filter isVideoFormat).filter
      (fun f => f.height == some targetHeight)) with _ | x
  · exact absurd ((pymax_eq_none _ _).mp ho) hne
  · obtain ⟨hle, l₁, l₂, hsplit, hlt⟩ :=
      pymax_spec scoreFormat scoreLt scoreLt_iff _ x ho
    have hxmem : x ∈ (formats.filter isVideoFormat).filter
        (fun f => f.height == some targetHeight) := by
      rw [hsplit]; simp
    have hxh : x.height = some targetHeight := by
      have h2 := (List.mem_filter.mp hxmem).2
      simpa using h2
    have hbest : getBestVideoFormatId formats targetHeight = some x.format_id := by
      simp only [getBestVideoFormatId, (isEmpty_false_iff _).mpr hvne,
        (isEmpty_false_iff _).mpr hne, Bool.not_false, if_false, if_true, ho,
        Option.map_some', Bool.false_eq_true, ite_false, ite_true]
    exact ⟨l₁, l₂, x, hsplit, hbest, hxh, hle, hlt⟩

theorem exact_match_selection_witness :
    ∃ l₁ l₂ f,
      List.filter (fun (f : FormatRecord) => f.height == some (1080 : Int))
        (List.filter isVideoFormat
          [{ format_id := "avc-720", vcodec := some "avc1", height := some 720,
             tbr := some 2000, url := "u720" },
           { format_id := "avc-1080", vcodec := some "avc1", height := some 1080,
             tbr := some 4000, url := "u1080" }])
        = l₁ ++ f :: l₂ ∧
      getBestVideoFormatId
        [{ format_id := "avc-720", vcodec := some "avc1", height := some 720,
           tbr := some 2000, url := "u720" },
         { format_id := "avc-1080", vcodec := some "avc1", height := some 1080,
           tbr := some 4000, url := "u1080" }] 1080 = some f.format_id ∧
      f.height = some 1080 ∧
      (∀ g ∈ List.filter (fun (f : FormatRecord) => f.height == some (1080 : Int))
          (List.filter isVideoFormat
            [{ format_id := "avc-720", vcodec := some "avc1", height := some 720,
               tbr := some 2000, url := "u720" },
             { format_id := "avc-1080", vcodec := some "avc1", height := some 1080,
               tbr := some 4000, url := "u1080" }]),
        scoreFormat g ≤ scoreFormat f) ∧
      (∀ g ∈ l₁, scoreFormat g < scoreFormat f) :=
  exact_match_selection
    [{ format_id := "avc-720", vcodec := some "avc1", height := some 720,
       tbr := some 2000, url := "u720" },
     { format_id := "avc-1080", vcodec := some "avc1", height := some 1080,
       tbr := some 4000, url := "u1080" }] 1080 (by decide)

theorem fallbackLt_iff (a b : FormatRecord) :
    fallbackLt a b = true ↔ fallbackKey a < fallbackKey b := by
  simp [fallbackLt, fallbackKey, Prod.Lex.lt_iff]

/-- C1 as stated is false, twice over: with heights {360, 2160} and target
1080 the selector returns the 2160p format although a below-target
candidate (360p) exists; and with heights {2160, 4320} and target 1080 it
returns 4320p, not the claimed closest-above 2160p. -/
theorem no_exact_match_counterexample :
    getBestVideoFormatId
      [{ format_id := "f360", vcodec := some "avc1", height := some 360,
         tbr := some 700 },
       { format_id := "f2160", vcodec := some "avc1", height := some 2160,
         tbr := some 9000 }] 1080 = some "f2160" ∧
    getBestVideoFormatId
      [{ format_id := "f2160", vcodec := some "avc1", height := some 2160,
         tbr := some 9000 },
       { format_id := "f4320", vcodec := some "avc1", height := some 4320,
         tbr := some 20000 }] 1080 = some "f4320" := by decide

/-- C1 amended: with no exact match the selector ignores the direction of
the target entirely (line 104 comment: "prefer highest quality available
(not closest)") and returns the first video format maximizing
`(height or 0, tbr or 0)` lexicographically — even when that height
exceeds the target and a below-target candidate exists. -/
theorem no_exact_match_selection (formats : List FormatRecord)
    (targetHeight : Int)
    (hvne : formats.filter isVideoFormat ≠ [])
    (hex : (formats.filter isVideoFormat).filter
      (fun f => f.height == some targetHeight) = []) :
    ∃ l₁ l₂ f, formats.filter isVideoFormat = l₁ ++ f :: l₂ ∧
      getBestVideoFormatId formats targetHeight = some f.format_id ∧
      (∀ g ∈ formats.filter isVideoFormat,
        g.height.getD 0 < f.height.getD 0 ∨
          (g.height.getD 0 = f.height.getD 0 ∧ g.tbr.getD 0 ≤ f.tbr.getD 0)) ∧
      (∀ g ∈ l₁,
        g.height.getD 0 < f.height.getD 0 ∨
          (g.height.getD 0 = f.height.getD 0 ∧ g.tbr.getD 0 < f.tbr.getD 0)) := by
  rcases ho : pymax fallbackLt (formats.filter isVideoFormat) with _ | x
  · exact absurd ((pymax_eq_none _ _).mp ho) hvne
  · obtain ⟨hle, l₁, l₂, hsplit, hlt⟩ :=
      pymax_spec fallbackKey fallbackLt fallbackLt_iff _ x ho
    have hbest : getBestVideoFormatId formats targetHeight = some x.format_id := by
      simp only [getBestVideoFormatId, (isEmpty_false_iff _).mpr hvne, hex,
        List.isEmpty_nil, Bool.not_true, Bool.false_eq_true, ite_false, ho,
        Option.map_some']
    refine ⟨l₁, l₂, x, hsplit, hbest, ?_, ?_⟩
    · intro g hg
      have := hle g hg
      simpa [fallbackKey, Prod.Lex.le_iff] using this
    · intro g hg
      have := hlt g hg
      simpa [fallbackKey, Prod.Lex.lt_iff] using this

theorem no_exact_match_selection_witness :
    ∃ l₁ l₂ f,
      List.filter isVideoFormat
        [{ format_id := "f240", vcodec := some "avc1", height := some 240,
           tbr := some 300, url := "u240" },
         { format_id := "f360", vcodec := some "avc1", height := some 360,
           tbr := some 700, url := "u360" }] = l₁ ++ f :: l₂ ∧
      getBestVideoFormatId
        [{ format_id := "f240", vcodec := some "avc1", height := some 240,
           tbr := some 300, url := "u240" },
         { format_id := "f360", vcodec := some "avc1", height := some 360,
           tbr := some 700, url := "u360" }] 1080 = some f.format_id ∧
      (∀ g ∈ List.filter isVideoFormat
          [{ format_id := "f240", vcodec := some "avc1", height := some 240,
             tbr := some 300, url := "u240" },
           { format_id := "f360", vcodec := some "avc1", height := some 360,
             tbr := some 700, url := "u360" }],
        g.height.getD 0 < f.height.getD 0 ∨
          (g.height.getD 0 = f.height.getD 0 ∧ g.tbr.getD 0 ≤ f.tbr.getD 0)) ∧
      (∀ g ∈ l₁,
        g.height.getD 0 < f.height.getD 0 ∨
          (g.height.getD 0 = f.height.getD 0 ∧ g.tbr.getD 0 < f.tbr.getD 0)) :=
  no_exact_match_selection
    [{ format_id := "f240", vcodec := some "avc1", height := some 240,
       tbr := some 300, url := "u240" },
     { format_id := "f360", vcodec := some "avc1", height := some 360,
       tbr := some 700, url := "u360" }] 1080 (by decide) (by decide)

/-- C7 fails on its preferred WebM family: with a Vorbis candidate at
100 kbps and an AAC candidate at 500 kbps, the Opus/Vorbis family of the
claim is non-empty, yet the code matches only `"opus"`, finds no such candidate,
falls back to all audio-only formats and pairs the AAC url. -/
theorem audio_pairing_counterexample :
    pairAudioUrl
      { format_id := "v1", vcodec := some "vp9", acodec := some "none",
        height := some 1080, url := "uvid" }
      [{ format_id := "a1", vcodec := some "none", acodec := some "vorbis",
         tbr := some 100, url := "uvorbis" },
       { format_id := "a2", vcodec := some "none", acodec := some "mp4a.40.2",
         tbr := some 500, url := "uaac" }]
      "webm" = some "uaac" := by decide

/-- C7 amended: a separate audio track is paired only when the chosen video
format has `acodec` literally `"none"`; among audio-only formats the
preferred family is `"opus" in acodec` for WebM — Vorbis is not preferred —
and `"mp4a" in acodec` otherwise; when the preferred subset is non-empty
its first highest-bitrate member is paired, otherwise the first
highest-bitrate audio-only candidate of any codec; with no audio-only
formats no audio is paired (video-only output). -/
theorem audio_pairing (sel : FormatRecord) (formats : List FormatRecord)
    (ext : String) :
    (sel.acodec ≠ some "none" → pairAudioUrl sel formats ext = none) ∧
    (formats.filter (fun f => f.acodec != some "none" && f.vcodec == some "none")
        = [] → pairAudioUrl sel formats ext = none) ∧
    (sel.acodec = some "none" → ext = "webm" →
      (formats.filter (fun f => f.acodec != some "none" && f.vcodec == some "none")).filter
          (fun f => strIn "opus" (f.acodec.getD "")) ≠ [] →
      ∃ l₁ l₂ f,
        (formats.filter (fun f => f.acodec != some "none" && f.vcodec == some "none")).filter
            (fun f => strIn "opus" (f.acodec.getD "")) = l₁ ++ f :: l₂ ∧
        pairAudioUrl sel formats ext = some f.url ∧
        (∀ g ∈ (formats.filter
            (fun f => f.acodec != some "none" && f.vcodec == some "none")).filter
              (fun f => strIn "opus" (f.acodec.getD "")),
          g.tbr.getD 0 ≤ f.tbr.getD 0) ∧
        (∀ g ∈ l₁, g.tbr.getD 0 < f.tbr.getD 0)) ∧
    (sel.acodec = some "none" → ext = "webm" →
      (formats.filter (fun f => f.acodec != some "none" && f.vcodec == some "none")).filter
          (fun f => strIn "opus" (f.acodec.getD "")) = [] →
      formats.filter (fun f => f.acodec != some "none" && f.vcodec == some "none")
          ≠ [] →
      ∃ l₁ l₂ f,
        formats.filter (fun f => f.acodec != some "none" && f.vcodec == some "none")
            = l₁ ++ f :: l₂ ∧
        pairAudioUrl sel formats ext = some f.url ∧
        (∀ g ∈ formats.filter
            (fun f => f.acodec != some "none" && f.vcodec == some "none"),
          g.tbr.getD 0 ≤ f.tbr.getD 0) ∧
        (∀ g ∈ l₁, g.tbr.getD 0 < f.tbr.getD 0)) ∧
    (sel.acodec = some "none" → ext ≠ "webm" →
      (formats.filter (fun f => f.acodec != some "none" && f.vcodec == some "none")).filter
          (fun f => strIn "mp4a" (f.acodec.getD "")) ≠ [] →
      ∃ l₁ l₂ f,
        (formats.filter (fun f => f.acodec != some "none" && f.vcodec == some "none")).filter
            (fun f => strIn "mp4a" (f.acodec.getD "")) = l₁ ++ f :: l₂ ∧
        pairAudioUrl sel formats ext = some f.url ∧
        (∀ g ∈ (formats.filter
            (fun f => f.acodec != some "none" && f.vcodec == some "none")).filter
              (fun f => strIn "mp4a" (f.acodec.getD "")),
          g.tbr.getD 0 ≤ f.tbr.getD 0) ∧
        (∀ g ∈ l₁, g.tbr.getD 0 < f.tbr.getD 0)) ∧
    (sel.acodec = some "none" → ext ≠ "webm" →
      (formats.filter (fun f => f.acodec != some "none" && f.vcodec == some "none")).filter
          (fun f => strIn "mp4a" (f.acodec.getD "")) = [] →
      formats.filter (fun f => f.acodec != some "none" && f.vcodec == some "none")
          ≠ [] →
      ∃ l₁ l₂ f,
        formats.filter (fun f => f.acodec != some "none" && f.vcodec == some "none")
            = l₁ ++ f :: l₂ ∧
        pairAudioUrl sel formats ext = some f.url ∧
        (∀ g ∈ formats.filter
            (fun f => f.acodec != some "none" && f.vcodec == some "none"),
          g.tbr.getD 0 ≤ f.tbr.getD 0) ∧
        (∀ g ∈ l₁, g.tbr.getD 0 < f.tbr.getD 0)) := by
  refine ⟨?_, ?_, ?_, ?_, ?_, ?_⟩
  · intro hsel
    simp [pairAudioUrl, hsel]
  · intro hA0
    by_cases hsel : sel.acodec = some "none"
    · simp [pairAudioUrl, hsel, hA0]
    · simp [pairAudioUrl, hsel]
  · intro hsel hw hPne
    subst hw
    have hAne : formats.filter
        (fun f => f.acodec != some "none" && f.vcodec == some "none") ≠ [] := by
      intro h0
      apply hPne
      rw [h0]
      rfl
    have hred : pairAudioUrl sel formats "webm" =
        (pymax tbrLt ((formats.filter
          (fun f => f.acodec != some "none" && f.vcodec == some "none")).filter
            (fun f => strIn "opus" (f.acodec.getD "")))).map FormatRecord.url := by
      simp only [pairAudioUrl, hsel, bne_self_eq_false, Bool.false_eq_true,
        ite_false, ite_true, (isEmpty_false_iff _).mpr hAne,
        (isEmpty_false_iff _).mpr hPne, beq_self_eq_true, if_true, if_false]
    obtain ⟨l₁, l₂, f, hsplit, hmap, hle, hlt⟩ := pymax_url_spec _ hPne
    exact ⟨l₁, l₂, f, hsplit, by rw [hred]; exact hmap, hle, hlt⟩
  · intro hsel hw hP0 hAne
    subst hw
    have hred : pairAudioUrl sel formats "webm" =
        (pymax tbrLt (formats.filter
          (fun f => f.acodec != some "none" && f.vcodec == some "none"))).map
            FormatRecord.url := by
      simp only [pairAudioUrl, hsel, bne_self_eq_false, Bool.false_eq_true,
        ite_false, ite_true, (isEmpty_false_iff _).mpr hAne, hP0,
        List.isEmpty_nil, beq_self_eq_true, if_true, if_false]
    obtain ⟨l₁, l₂, f, hsplit, hmap, hle, hlt⟩ := pymax_url_spec _ hAne
    exact ⟨l₁, l₂, f, hsplit, by rw [hred]; exact hmap, hle, hlt⟩
  · intro hsel hw hPne
    have hAne : formats.filter
        (fun f => f.acodec != some "none" && f.vcodec == some "none") ≠ [] := by
      intro h0
      apply hPne
      rw [h0]
      rfl
    have hred : pairAudioUrl sel formats ext =
        (pymax tbrLt ((formats.filter
          (fun f => f.acodec != some "none" && f.vcodec == some "none")).filter
            (fun f => strIn "mp4a" (f.acodec.getD "")))).map FormatRecord.url := by
      simp only [pairAudioUrl, hsel, bne_self_eq_false, Bool.false_eq_true,
        ite_false, ite_true, (isEmpty_false_iff _).mpr hAne,
        (isEmpty_false_iff _).mpr hPne, beq_eq_false_iff_ne.mpr hw,
        if_true, if_false]
    obtain ⟨l₁, l₂, f, hsplit, hmap, hle, hlt⟩ := pymax_url_spec _ hPne
    exact ⟨l₁, l₂, f, hsplit, by rw [hred]; exact hmap, hle, hlt⟩
  · intro hsel hw hP0 hAne
    have hred : pairAudioUrl sel formats ext =
        (pymax tbrLt (formats.filter
          (fun f => f.acodec != some "none" && f.vcodec == some "none"))).map
            FormatRecord.url := by
      simp only [pairAudioUrl, hsel, bne_self_eq_false, Bool.false_eq_true,
        ite_false, ite_true, (isEmpty_false_iff _).mpr hAne, hP0,
        List.isEmpty_nil, beq_eq_false_iff_ne.mpr hw, if_true, if_false]
    obtain ⟨l₁, l₂, f, hsplit, hmap, hle, hlt⟩ := pymax_url_spec _ hAne
    exact ⟨l₁, l₂, f, hsplit, by rw [hred]; exact hmap, hle, hlt⟩

theorem audio_pairing_witness :
    ∃ l₁ l₂ f,
      (List.filter (fun (f : FormatRecord) => f.acodec != some "none" && f.vcodec == some "none")
          [{ format_id := "ao", vcodec := some "none", acodec := some "opus",
             tbr := some 50, url := "uo" }]).filter
          (fun (f : FormatRecord) => strIn "opus" (f.acodec.getD "")) = l₁ ++ f :: l₂ ∧
      pairAudioUrl { format_id := "v1", acodec := some "none" }
        [{ format_id := "ao", vcodec := some "none", acodec := some "opus",
           tbr := some 50, url := "uo" }] "webm" = some f.url ∧
      (∀ g ∈ (List.filter
            (fun (f : FormatRecord) => f.acodec != some "none" && f.vcodec == some "none")
            [{ format_id := "ao", vcodec := some "none", acodec := some "opus",
               tbr := some 50, url := "uo" }]).filter
            (fun (f : FormatRecord) => strIn "opus" (f.acodec.getD "")),
        g.tbr.getD 0 ≤ f.tbr.getD 0) ∧
      (∀ g ∈ l₁, g.tbr.getD 0 < f.tbr.getD 0) :=
  (audio_pairing { format_id := "v1", acodec := some "none" }
    [{ format_id := "ao", vcodec := some "none", acodec := some "opus",
       tbr := some 50, url := "uo" }] "webm").2.2.1 rfl rfl (by decide)

/-- With unique ids, looking the id of a member up with `next(...)`
returns that member itself. -/
theorem find?_format_id (formats : List FormatRecord) (f : FormatRecord)
    (hmem : f ∈ formats)
    (hnodup : (formats.map FormatRecord.format_id).Nodup) :
    formats.find? (fun g => g.format_id == f.format_id) = some f := by
  induction formats with
  | nil => cases hmem
  | cons a t ih =>
      have hnd : a.format_id ∉ t.map FormatRecord.format_id ∧
          (t.map FormatRecord.format_id).Nodup := by
        simpa using hnodup
      rcases List.mem_cons.mp hmem with rfl | hmt
      · exact List.find?_cons_of_pos t (by simp)
      · have hne : ¬(a.format_id == f.format_id) = true := by
          simp only [beq_iff_eq]
          intro he
          apply hnd.1
          rw [he]
          exact List.mem_map_of_mem _ hmt
        rw [List.find?_cons_of_neg t hne]
        exact ih hmt hnd.2

/-- Embeds the fact that `_get_best_video_format_id` returns `None` exactly on catalogs without
video formats. -/
theorem getBest_none_iff (formats : List FormatRecord) (th : Int) :
    getBestVideoFormatId formats th = none ↔
      formats.filter isVideoFormat = [] := by
  constructor
  · intro h
    simp only [getBestVideoFormatId] at h
    split at h
    · next hcond => exact List.isEmpty_iff.mp hcond
    · next hcond =>
        split at h
        · next hcond2 =>
            rcases ho : pymax scoreLt ((formats.filter isVideoFormat).filter
                (fun f => f.height == some th)) with _ | x
            · have h0 := (pymax_eq_none _ _).mp ho
              rw [h0] at hcond2
              simp at hcond2
            · rw [ho] at h
              simp at h
        · next hcond2 =>
            rcases ho : pymax fallbackLt (formats.filter isVideoFormat) with _ | x
            · exact (pymax_eq_none _ _).mp ho
            · rw [ho] at h
              simp at h
  · intro h
    simp only [getBestVideoFormatId, h, List.isEmpty_nil, ite_true]

/-- The id `_get_best_video_format_id` returns belongs to a video format of
the catalog. -/
theorem getBest_mem (formats : List FormatRecord) (th : Int) (vid : String)
    (h : getBestVideoFormatId formats th = some vid) :
    ∃ f, f ∈ formats.filter isVideoFormat ∧ f.format_id = vid := by
  simp only [getBestVideoFormatId] at h
  split at h
  · cases h
  · split at h
    · rcases ho : pymax scoreLt ((formats.filter isVideoFormat).filter
          (fun f => f.height == some th)) with _ | x
      · rw [ho] at h; cases h
      · rw [ho] at h
        have hmem := pymax_mem scoreFormat scoreLt scoreLt_iff _ x ho
        refine ⟨x, (List.mem_filter.mp hmem).1, ?_⟩
        simpa using h
    · rcases ho : pymax fallbackLt (formats.filter isVideoFormat) with _ | x
      · rw [ho] at h; cases h
      · rw [ho] at h
        have hmem := pymax_mem fallbackKey fallbackLt fallbackLt_iff _ x ho
        refine ⟨x, hmem, ?_⟩
        simpa using h

/-- C3: in video mode `stream_media` raises `Could not find suitable video
stream` exactly when the catalog has no format with a video codec and a
present height; with at least one such format, a video format of the
catalog is selected and the selection path does not raise.  Hypotheses:
format ids are unique and non-empty and urls are non-empty, as yt-dlp
delivers them (an empty id or url is Python-falsy and changes the path). -/
theorem video_mode_stream (formats : List FormatRecord) (targetHeight : Int)
    (hid : ∀ f ∈ formats, f.format_id ≠ "")
    (hurl : ∀ f ∈ formats, f.url ≠ "")
    (hnodup : (formats.map FormatRecord.format_id).Nodup) :
    (videoModeRaises formats targetHeight = true ↔
      formats.filter isVideoFormat = []) ∧
    (formats.filter isVideoFormat ≠ [] →
      ∃ f ∈ formats, isVideoFormat f = true ∧
        selectVideoFmt formats targetHeight = some f) := by
  by_cases hv : formats.filter isVideoFormat = []
  · have hbest : getBestVideoFormatId formats targetHeight = none :=
      (getBest_none_iff formats targetHeight).mpr hv
    have hcand : formats.filter
        (fun (f : FormatRecord) => f.vcodec != some "none" && f.height.getD 0 != 0)
        = [] := by
      rw [List.eq_nil_iff_forall_not_mem]
      intro g hg
      rw [List.mem_filter] at hg
      obtain ⟨hgf, hcond⟩ := hg
      rw [Bool.and_eq_true] at hcond
      have hgv : isVideoFormat g = true := by
        unfold isVideoFormat
        rw [Bool.and_eq_true]
        refine ⟨hcond.1, ?_⟩
        cases hh : g.height with
        | none =>
            rw [hh] at hcond
            simp at hcond
        | some v => rfl
      have hmem : g ∈ formats.filter isVideoFormat :=
        List.mem_filter.mpr ⟨hgf, hgv⟩
      rw [hv] at hmem
      cases hmem
    have hsel : selectVideoFmt formats targetHeight = none := by
      simp only [selectVideoFmt, hbest, hcand, pymax]
    refine ⟨?_, fun hne => absurd hv hne⟩
    simp [videoModeRaises, hsel, hv]
  · rcases hb : getBestVideoFormatId formats targetHeight with _ | vid
    · exact absurd ((getBest_none_iff formats targetHeight).mp hb) hv
    · obtain ⟨fx, hfxv, hfxid⟩ := getBest_mem formats targetHeight vid hb
      have hfxF : fx ∈ formats := (List.mem_filter.mp hfxv).1
      have hvid : ¬(vid == "") = true := by
        simp only [beq_iff_eq]
        rw [← hfxid]
        exact hid fx hfxF
      have hfind : formats.find? (fun g => g.format_id == vid) = some fx := by
        rw [← hfxid]
        exact find?_format_id formats fx hfxF hnodup
      have hvidF : (vid == "") = false := by
        cases hveq : (vid == "") with
        | false => rfl
        | true => exact absurd hveq hvid
      have hsel : selectVideoFmt formats targetHeight = some fx := by
        simp only [selectVideoFmt, hb, hvidF, Bool.false_eq_true, ite_false, hfind]
      have hraise : videoModeRaises formats targetHeight = false := by
        simp [videoModeRaises, hsel, hurl fx hfxF]
      refine ⟨?_, fun _ => ⟨fx, hfxF, (List.mem_filter.mp hfxv).2, hsel⟩⟩
      rw [hraise]
      simp [hv]

theorem video_mode_stream_witness :
    (videoModeRaises
      [{ format_id := "v1", vcodec := some "avc1", height := some 720,
         tbr := some 1000, url := "u1" }] 1080 = true ↔
      List.filter isVideoFormat
        [{ format_id := "v1", vcodec := some "avc1", height := some 720,
           tbr := some 1000, url := "u1" }] = []) ∧
    (List.filter isVideoFormat
        [{ format_id := "v1", vcodec := some "avc1", height := some 720,
           tbr := some 1000, url := "u1" }] ≠ [] →
      ∃ f ∈ [{ format_id := "v1", vcodec := some "avc1", height := some 720,
               tbr := some 1000, url := "u1" }],
        isVideoFormat f = true ∧
        selectVideoFmt
          [{ format_id := "v1", vcodec := some "avc1", height := some 720,
             tbr := some 1000, url := "u1" }] 1080 = some f) :=
  video_mode_stream
    [{ format_id := "v1", vcodec := some "avc1", height := some 720,
       tbr := some 1000, url := "u1" }] 1080
    (by decide) (by decide) (by decide)

theorem safe_title_amended_witness :
    (∀ c ∈ (safeTitle "a/b:c").toList, isSafeChar c = true) ∧
    (safeTitle "a/b:c").length ≤ 200 ∧
    (safeTitle "a/b:c" = "" ↔ "a/b:c" = "") :=
  safe_title_amended "a/b:c"
